import Mathlib

/-!
Verification of the dual-tier storage manager and the auth/points store.

The development shallow-embeds two source components:

* `StorageManager` (the class in `src/unnamed/part_001`): namespaced
  key-value access over two browser storage tiers (`localStorage` as the
  primary tier, `sessionStorage` as the secondary tier), with `set` and the
  bidirectional reconciliation pass `sync`.
* the zustand auth store (`src/src/stores/authStore.ts`): a directory of
  user accounts with `login`, `updateProfile`, `updateAvatar`,
  `updatePoints`, `updateUserPoints` and `registerUser`.

A storage tier and a JS object are both modelled as an ordered association
list `List (String × α)`: JS `obj[k]` / `Storage.getItem` is the first
entry with the given key (`lookupA`), and `obj[k] = v` / `Storage.setItem`
overwrites the entry in place when the key exists and appends otherwise
(`setA`), matching JS insertion-order semantics.  A JS object field that
may be `undefined` is an `Option`; a statement that would throw a
`TypeError` is modelled by an `Option`-returning operation producing
`none`.
-/

section AssocList

variable {α : Type}

/-- JS object / Storage read: value of the first entry with the given key
(`undefined`, i.e. `none`, when absent). -/
def lookupA (l : List (String × α)) (k : String) : Option α :=
  (l.find? (fun p => p.1 == k)).map Prod.snd

/-- JS object / Storage write: overwrite the existing entry in place when
the key is present, append a new entry otherwise.  (On a storage area or a
JS object keys are unique, so replacing the first occurrence is the exact
assignment semantics.) -/
def setA : List (String × α) → String → α → List (String × α)
  | [], k, v => [(k, v)]
  | a :: l, k, v => if a.1 = k then (k, v) :: l else a :: setA l k v

/-- The keys of the list are pairwise distinct (always true of a JS object
or a browser Storage area). -/
def keysNodup (l : List (String × α)) : Prop := (l.map Prod.fst).Nodup

instance (l : List (String × α)) : Decidable (keysNodup l) := by
  unfold keysNodup; infer_instance

@[simp]
theorem lookupA_nil (k : String) : lookupA ([] : List (String × α)) k = none := rfl

theorem lookupA_cons (a : String × α) (l : List (String × α)) (k : String) :
    lookupA (a :: l) k = if a.1 = k then some a.2 else lookupA l k := by
  by_cases h : a.1 = k <;> simp [lookupA, List.find?_cons, h]

theorem lookupA_mem {l : List (String × α)} {k : String} {v : α}
    (h : lookupA l k = some v) : (k, v) ∈ l := by
  induction l with
  | nil => simp at h
  | cons a l ih =>
    rw [lookupA_cons] at h
    by_cases hk : a.1 = k
    · rw [if_pos hk] at h
      have h2 : a.2 = v := by injection h
      have : (k, v) = a := by rw [← hk, ← h2]
      rw [this]
      exact List.mem_cons_self a l
    · rw [if_neg hk] at h
      exact List.mem_cons_of_mem _ (ih h)

theorem lookupA_eq_none_of_not_mem {l : List (String × α)} {k : String}
    (h : k ∉ l.map Prod.fst) : lookupA l k = none := by
  induction l with
  | nil => rfl
  | cons a l ih =>
    simp only [List.map_cons, List.mem_cons, not_or] at h
    rw [lookupA_cons, if_neg (fun he => h.1 he.symm)]
    exact ih h.2

theorem lookupA_self_of_nodup {l : List (String × α)} (hl : keysNodup l) :
    ∀ kv ∈ l, lookupA l kv.1 = some kv.2 := by
  induction l with
  | nil => simp
  | cons a l ih =>
    unfold keysNodup at hl
    simp only [List.map_cons, List.nodup_cons] at hl
    intro kv hkv
    rw [List.mem_cons] at hkv
    rcases hkv with hkv | hkv
    · rw [hkv, lookupA_cons, if_pos rfl]
    · rw [lookupA_cons, if_neg, ih hl.2 kv hkv]
      intro he
      exact hl.1 (he ▸ List.mem_map_of_mem Prod.fst hkv)

theorem mem_keys_of_lookupA {l : List (String × α)} {k : String} {v : α}
    (h : lookupA l k = some v) : k ∈ l.map Prod.fst := by
  by_contra hk
  rw [lookupA_eq_none_of_not_mem hk] at h
  exact Option.noConfusion h

/-- `setA` leaves the key list unchanged when the key is already present
and appends the key otherwise. -/
theorem keys_setA (l : List (String × α)) (k : String) (v : α) :
    (setA l k v).map Prod.fst =
      if k ∈ l.map Prod.fst then l.map Prod.fst else l.map Prod.fst ++ [k] := by
  induction l with
  | nil => simp [setA]
  | cons a l ih =>
    by_cases ha : a.1 = k
    · simp [setA, ha]
    · have hne : ¬ (k = a.1) := fun he => ha he.symm
      simp only [setA, if_neg ha, List.map_cons, ih, List.mem_cons]
      by_cases hmem : k ∈ l.map Prod.fst
      · simp [hmem, hne]
      · simp [hmem, hne]

theorem keysNodup_setA {l : List (String × α)} (hl : keysNodup l)
    (k : String) (v : α) : keysNodup (setA l k v) := by
  unfold keysNodup at hl ⊢
  rw [keys_setA]
  by_cases h : k ∈ l.map Prod.fst
  · rwa [if_pos h]
  · rw [if_neg h]
    rw [List.nodup_append]
    exact ⟨hl, List.nodup_singleton k, by simpa using h⟩

@[simp]
theorem lookupA_setA_self (l : List (String × α)) (k : String) (v : α) :
    lookupA (setA l k v) k = some v := by
  induction l with
  | nil => simp [setA, lookupA_cons]
  | cons a l ih =>
    by_cases ha : a.1 = k
    · simp [setA, ha, lookupA_cons]
    · rw [setA, if_neg ha, lookupA_cons, if_neg ha]
      exact ih

theorem lookupA_setA_ne (l : List (String × α)) (k : String) (v : α)
    {k' : String} (hk : k' ≠ k) : lookupA (setA l k v) k' = lookupA l k' := by
  induction l with
  | nil =>
    have : ¬ (k = k') := fun he => hk he.symm
    simp [setA, lookupA_cons, this]
  | cons a l ih =>
    by_cases ha : a.1 = k
    · rw [setA, if_pos ha, lookupA_cons, lookupA_cons, if_neg (fun he => hk he.symm),
        if_neg (ha ▸ (fun he => hk he.symm) : ¬ a.1 = k')]
    · rw [setA, if_neg ha, lookupA_cons, lookupA_cons]
      by_cases ha' : a.1 = k'
      · rw [if_pos ha', if_pos ha']
      · rw [if_neg ha', if_neg ha', ih]

/-- Writing back a value that is already stored is a no-op. -/
theorem setA_self {l : List (String × α)} {k : String} {v : α}
    (h : lookupA l k = some v) : setA l k v = l := by
  induction l with
  | nil => simp at h
  | cons a l ih =>
    rw [lookupA_cons] at h
    by_cases ha : a.1 = k
    · have h2 : a.2 = v := by rw [if_pos ha] at h; injection h
      rw [setA, if_pos ha, ← ha, ← h2]
    · rw [if_neg ha] at h
      rw [setA, if_neg ha, ih h]

/-- Every entry of `setA l k v` is an entry of `l` or the new pair. -/
theorem mem_setA {l : List (String × α)} {k : String} {v : α} {p : String × α}
    (h : p ∈ setA l k v) : p ∈ l ∨ p = (k, v) := by
  induction l with
  | nil =>
    right
    simpa [setA] using h
  | cons a l ih =>
    by_cases ha : a.1 = k
    · rw [setA, if_pos ha, List.mem_cons] at h
      rcases h with h | h
      · exact Or.inr h
      · exact Or.inl (List.mem_cons_of_mem _ h)
    · rw [setA, if_neg ha, List.mem_cons] at h
      rcases h with h | h
      · exact Or.inl (h ▸ List.mem_cons_self a l)
      · rcases ih h with h | h
        · exact Or.inl (List.mem_cons_of_mem _ h)
        · exact Or.inr h

end AssocList

/-! ## The storage tiers and `StorageManager` (src/unnamed/part_001) -/

/-- A browser storage area: ordered key-value entries of strings. -/
abbrev Store := List (String × String)

/-- `Storage.getItem` (returns `null`, i.e. `none`, when the key is absent). -/
def getItem (s : Store) (k : String) : Option String := lookupA s k

/-- `Storage.setItem`. -/
def setItem (s : Store) (k v : String) : Store := setA s k v

/-- JS `String.prototype.replace` with a plain-string pattern replaces only
the first occurrence of the pattern (the source uses
`key.replace(this.storagePrefix, '')`), here specialised to the empty
replacement string: drop the first occurrence of `pat`. -/
def replFirstAux (pat : List Char) : List Char → List Char
  | [] => []
  | c :: cs =>
    if pat.isPrefixOf (c :: cs) then (c :: cs).drop pat.length
    else c :: replFirstAux pat cs

/-- `s.replace(pat, '')` for a plain-string `pat` (first occurrence only). -/
def jsReplaceFirst (s pat : String) : String := String.mk (replFirstAux pat.data s.data)

namespace StorageManager

/-- `private storagePrefix = 'pointmoney_'`. -/
def storagePrefixVal : String := "pointmoney_"

/-- `private persistentKeys = new Set([...])`. -/
def persistentKeys : List String :=
  ["auth_credentials", "users", "point-storage", "withdrawal-storage"]

/-- `isPersistentKey(key)`: allowlist membership. -/
def isPersistentKey (k : String) : Bool := persistentKeys.contains k

/-- `private getKey(key)`: prepend the namespace prefix. -/
def getKey (key : String) : String := storagePrefixVal ++ key

/-- One storage tier together with its failure behaviour: `failsOn k v`
models `Storage.setItem(k, v)` throwing (e.g. quota exceeded). -/
structure TierModel where
  store : Store
  failsOn : String → String → Bool

/-- `StorageManager.set(key, value)`.  `ser` is the result of
`JSON.stringify(value)`: `none` models the serializer throwing.  The whole
body runs in a single `try`; any throw jumps to the `catch`, which returns
`false` with whatever writes already happened left in place.  Result:
(returned boolean, primary tier, secondary tier). -/
def set (ser : Option String) (loc sess : TierModel) (key : String) :
    Bool × TierModel × TierModel :=
  match ser with
  | none => (false, loc, sess)
  | some sv =>
    let pk := getKey key
    if loc.failsOn pk sv then (false, loc, sess)
    else
      let loc2 : TierModel := { loc with store := setItem loc.store pk sv }
      if sess.failsOn pk sv then (false, loc2, sess)
      else (true, loc2, { sess with store := setItem sess.store pk sv })

/-- First pass of `sync()`: for every key of `localStorage`, if the key and
its value are truthy (non-empty strings), copy the entry into
`sessionStorage`.  The iteration reads `localStorage` only, which is not
modified during the pass. -/
def syncPass1 (loc sess : Store) : Store :=
  loc.foldl
    (fun acc kv =>
      if kv.1 != "" then
        match getItem loc kv.1 with
        | some v => if v != "" then setItem acc kv.1 v else acc
        | none => acc
      else acc)
    sess

/-- Second pass of `sync()`: for every key of `sessionStorage` (as left by
the first pass), if the key is truthy and `key.replace(storagePrefix, '')`
is in the persistent allowlist and the value is truthy, copy the entry into
`localStorage`. -/
def syncPass2 (sess loc : Store) : Store :=
  sess.foldl
    (fun acc kv =>
      if kv.1 != "" then
        if isPersistentKey (jsReplaceFirst kv.1 storagePrefixVal) then
          match getItem sess kv.1 with
          | some v => if v != "" then setItem acc kv.1 v else acc
          | none => acc
        else acc
      else acc)
    loc

/-- `StorageManager.sync()`: primary-to-secondary pass, then
secondary-to-primary pass restricted to persistent keys.  Result:
(primary tier, secondary tier). -/
def sync (loc sess : Store) : Store × Store :=
  let sess1 := syncPass1 loc sess
  let loc1 := syncPass2 sess1 loc
  (loc1, sess1)

end StorageManager

namespace StorageManager

/-- The shape both `sync` passes share once the by-key `getItem` reads are
resolved: copy each source entry whose key satisfies `cond` and whose value
is non-empty into the accumulator. -/
def copyBody (cond : String → Bool) (acc : Store) (kv : String × String) : Store :=
  if cond kv.1 && (kv.2 != "") then setItem acc kv.1 kv.2 else acc

/-- Folding `copyBody` over the whole source tier. -/
def simpleCopy (cond : String → Bool) (src dst : Store) : Store :=
  src.foldl (copyBody cond) dst

theorem foldl_eq_simpleCopy (step : Store → (String × String) → Store)
    (cond : String → Bool) (srcL : Store) (l : List (String × String)) (dst : Store)
    (hstep : ∀ acc kv, kv ∈ l → getItem srcL kv.1 = some kv.2 →
      step acc kv = copyBody cond acc kv)
    (h : ∀ kv ∈ l, getItem srcL kv.1 = some kv.2) :
    l.foldl step dst = l.foldl (copyBody cond) dst := by
  induction l generalizing dst with
  | nil => rfl
  | cons a l ih =>
    rw [List.foldl_cons, List.foldl_cons,
      hstep dst a (List.mem_cons_self a l) (h a (List.mem_cons_self a l))]
    exact ih (copyBody cond dst a)
      (fun acc kv hkv => hstep acc kv (List.mem_cons_of_mem _ hkv))
      (fun kv hkv => h kv (List.mem_cons_of_mem _ hkv))

theorem keysNodup_copyBody (cond : String → Bool) {dst : Store}
    (hd : keysNodup dst) (kv : String × String) : keysNodup (copyBody cond dst kv) := by
  unfold copyBody
  by_cases hc : (cond kv.1 && (kv.2 != "")) = true
  · rw [if_pos hc]
    exact keysNodup_setA hd kv.1 kv.2
  · rwa [if_neg hc]

theorem keysNodup_simpleCopy (cond : String → Bool) (src : Store) {dst : Store}
    (hd : keysNodup dst) : keysNodup (simpleCopy cond src dst) := by
  induction src generalizing dst with
  | nil => exact hd
  | cons a src ih =>
    rw [simpleCopy, List.foldl_cons]
    exact ih (keysNodup_copyBody cond hd a)

theorem getItem_simpleCopy (cond : String → Bool) {src : Store}
    (hs : keysNodup src) (dst : Store) (k : String) :
    getItem (simpleCopy cond src dst) k =
      match getItem src k with
      | some v => if cond k && (v != "") then some v else getItem dst k
      | none => getItem dst k := by
  induction src generalizing dst with
  | nil => rfl
  | cons a src ih =>
    unfold keysNodup at hs
    simp only [List.map_cons, List.nodup_cons] at hs
    rw [simpleCopy, List.foldl_cons]
    have hrec := ih hs.2 (copyBody cond dst a)
    rw [simpleCopy] at hrec
    rw [hrec]
    by_cases hk : a.1 = k
    · have hnone : lookupA src k = none :=
        lookupA_eq_none_of_not_mem (hk ▸ hs.1)
      show (match getItem src k with
        | some v => if cond k && (v != "") then some v else getItem (copyBody cond dst a) k
        | none => getItem (copyBody cond dst a) k) = _
      rw [show getItem src k = none from hnone,
        show getItem (a :: src) k = some a.2 by
          rw [getItem, lookupA_cons, if_pos hk]]
      show getItem (copyBody cond dst a) k = if cond k && (a.2 != "") then some a.2 else getItem dst k
      unfold copyBody
      rw [hk]
      by_cases hc : (cond k && (a.2 != "")) = true
      · rw [if_pos hc, if_pos hc]
        exact lookupA_setA_self dst k a.2
      · rw [if_neg hc, if_neg hc]
    · have hcons : getItem (a :: src) k = getItem src k := by
        rw [getItem, lookupA_cons, if_neg hk]
        rfl
      have hbody : getItem (copyBody cond dst a) k = getItem dst k := by
        unfold copyBody
        by_cases hc : (cond a.1 && (a.2 != "")) = true
        · rw [if_pos hc]
          exact lookupA_setA_ne dst a.1 a.2 (fun he => hk he.symm)
        · rw [if_neg hc]
      rw [hcons, hbody]

theorem getItem_simpleCopy_of_some (cond : String → Bool) {src : Store}
    (hs : keysNodup src) (dst : Store) {k v : String}
    (h : getItem src k = some v) :
    getItem (simpleCopy cond src dst) k =
      if cond k && (v != "") then some v else getItem dst k := by
  rw [getItem_simpleCopy cond hs dst k, h]

theorem getItem_simpleCopy_of_none (cond : String → Bool) {src : Store}
    (hs : keysNodup src) (dst : Store) {k : String}
    (h : getItem src k = none) :
    getItem (simpleCopy cond src dst) k = getItem dst k := by
  rw [getItem_simpleCopy cond hs dst k, h]

/-- If everything the copy would write is already present in `dst` with the
same value, the copy is a no-op. -/
theorem simpleCopy_eq_self (cond : String → Bool) {src dst : Store}
    (h : ∀ kv ∈ src, cond kv.1 = true → kv.2 ≠ "" → getItem dst kv.1 = some kv.2) :
    simpleCopy cond src dst = dst := by
  induction src with
  | nil => rfl
  | cons a src ih =>
    have hstep : copyBody cond dst a = dst := by
      unfold copyBody
      by_cases hc : (cond a.1 && (a.2 != "")) = true
      · rw [if_pos hc]
        rw [Bool.and_eq_true, bne_iff_ne] at hc
        exact setA_self (h a (List.mem_cons_self a src) hc.1 hc.2)
      · rw [if_neg hc]
    rw [simpleCopy, List.foldl_cons, hstep]
    exact ih (fun kv hkv => h kv (List.mem_cons_of_mem _ hkv))

/-- The condition pass 1 applies to an entry. -/
def pass1Cond : String → Bool := fun k => k != ""

/-- The condition pass 2 applies to an entry. -/
def pass2Cond : String → Bool :=
  fun k => (k != "") && isPersistentKey (jsReplaceFirst k storagePrefixVal)

theorem syncPass1_eq (loc sess : Store) (hl : keysNodup loc) :
    syncPass1 loc sess = simpleCopy pass1Cond loc sess := by
  apply foldl_eq_simpleCopy _ pass1Cond loc loc sess _ (lookupA_self_of_nodup hl)
  intro acc kv _ hget
  show (if kv.1 != "" then _ else acc) = copyBody pass1Cond acc kv
  rw [hget]
  unfold copyBody pass1Cond
  by_cases h1 : (kv.1 != "") = true <;> by_cases h2 : (kv.2 != "") = true <;>
    simp [h1, h2]

theorem syncPass2_eq (sess loc : Store) (hs : keysNodup sess) :
    syncPass2 sess loc = simpleCopy pass2Cond sess loc := by
  apply foldl_eq_simpleCopy _ pass2Cond sess sess loc _ (lookupA_self_of_nodup hs)
  intro acc kv _ hget
  show (if kv.1 != "" then
      if isPersistentKey (jsReplaceFirst kv.1 storagePrefixVal) then _ else acc
    else acc) = copyBody pass2Cond acc kv
  rw [hget]
  unfold copyBody pass2Cond
  by_cases h1 : (kv.1 != "") = true <;>
    by_cases hp : isPersistentKey (jsReplaceFirst kv.1 storagePrefixVal) = true <;>
    by_cases h2 : (kv.2 != "") = true <;>
    simp [h1, hp, h2]

theorem keysNodup_syncPass1 {loc sess : Store} (hl : keysNodup loc)
    (hs : keysNodup sess) : keysNodup (syncPass1 loc sess) := by
  rw [syncPass1_eq loc sess hl]
  exact keysNodup_simpleCopy pass1Cond loc hs

theorem keysNodup_syncPass2 {sess loc : Store} (hs : keysNodup sess)
    (hl : keysNodup loc) : keysNodup (syncPass2 sess loc) := by
  rw [syncPass2_eq sess loc hs]
  exact keysNodup_simpleCopy pass2Cond sess hl

end StorageManager

/-! ## Helper facts about the namespace prefix -/

theorem replFirstAux_append : ∀ (pat r : List Char), pat ≠ [] →
    replFirstAux pat (pat ++ r) = r
  | [], _, hp => absurd rfl hp
  | c :: cs, r, _ => by
    rw [List.cons_append, replFirstAux, if_pos (by
      rw [List.isPrefixOf_iff_prefix, ← List.cons_append]
      exact List.prefix_append _ _), ← List.cons_append, List.drop_left]

/-- Stripping the namespace prefix from a key that starts with it yields the
unprefixed key (the prefix first occurs at position 0). -/
theorem jsReplaceFirst_getKey (rest : String) :
    jsReplaceFirst (StorageManager.getKey rest) StorageManager.storagePrefixVal = rest := by
  unfold jsReplaceFirst
  rw [show (StorageManager.getKey rest).data =
      StorageManager.storagePrefixVal.data ++ rest.data from rfl]
  rw [replFirstAux_append _ _ (by decide)]

theorem getKey_ne_empty (rest : String) : StorageManager.getKey rest ≠ "" := by
  intro h
  have hd : (StorageManager.getKey rest).data = ([] : List Char) := by rw [h]
  rw [show (StorageManager.getKey rest).data =
      StorageManager.storagePrefixVal.data ++ rest.data from rfl] at hd
  rcases List.append_eq_nil.mp hd with ⟨h1, _⟩
  exact absurd h1 (by decide)

/-! ## Claims C6, C7, C8 -/

/-- Concrete tier whose writes always succeed. -/
def cexLocTier : StorageManager.TierModel :=
  { store := [], failsOn := fun _ _ => false }

/-- Concrete tier whose writes always throw (e.g. quota exhausted). -/
def cexSessTier : StorageManager.TierModel :=
  { store := [], failsOn := fun _ _ => true }

/-- C6 counterexample: with a healthy primary tier and a failing secondary
tier, `set` returns `false` (so a secondary-tier failure does make the call
return `false`), and the primary tier has already been written, so the
tiers are not left unchanged. -/
theorem storage_set_c6_counterexample :
    (StorageManager.set (some "1") cexLocTier cexSessTier "users").1 = false ∧
    (StorageManager.set (some "1") cexLocTier cexSessTier "users").2.1.store ≠
      cexLocTier.store := by
  constructor
  · rfl
  · intro h
    exact absurd h (by decide)

/-- C6 (amended): `set(key, value)` returns `false` exactly when
serialization fails, the primary-tier write fails, or the secondary-tier
write fails (the single try/catch catches all three).  On a serialization
or primary-tier failure both tiers are unchanged; when only the
secondary-tier write fails the call still returns `false`, but the primary
tier already contains the new write (a partial write) and the secondary
tier is unchanged. -/
theorem storage_set_amended_c6 (ser : Option String)
    (loc sess : StorageManager.TierModel) (key : String) :
    ((StorageManager.set ser loc sess key).1 = true ↔
      ∃ sv, ser = some sv ∧ loc.failsOn (StorageManager.getKey key) sv = false ∧
        sess.failsOn (StorageManager.getKey key) sv = false) ∧
    (ser = none → StorageManager.set ser loc sess key = (false, loc, sess)) ∧
    (∀ sv, ser = some sv → loc.failsOn (StorageManager.getKey key) sv = true →
      StorageManager.set ser loc sess key = (false, loc, sess)) ∧
    (∀ sv, ser = some sv → loc.failsOn (StorageManager.getKey key) sv = false →
      sess.failsOn (StorageManager.getKey key) sv = true →
      StorageManager.set ser loc sess key =
        (false, { loc with store := setItem loc.store (StorageManager.getKey key) sv },
          sess)) := by
  cases ser with
  | none =>
    refine ⟨⟨fun h => absurd h (by simp [StorageManager.set]), ?_⟩, fun _ => rfl,
      fun sv h => Option.noConfusion h, fun sv h => Option.noConfusion h⟩
    rintro ⟨sv, hsv, -⟩
    exact Option.noConfusion hsv
  | some sv =>
    by_cases hl : loc.failsOn (StorageManager.getKey key) sv = true
    · constructor
      · constructor
        · intro h
          rw [StorageManager.set] at h
          simp only [hl, if_true] at h
          exact absurd h (by decide)
        · rintro ⟨sv2, hsv2, hl2, -⟩
          rw [show sv2 = sv by injection hsv2 with h; rw [h]] at hl2
          rw [hl2] at hl
          exact absurd hl (by decide)
      · refine ⟨fun h => Option.noConfusion h, fun sv2 h2 _ => ?_, fun sv2 h2 hf _ => ?_⟩
        · rw [StorageManager.set]
          simp only [hl, if_true]
        · rw [show sv2 = sv by injection h2 with h; rw [h]] at hf
          rw [hf] at hl
          exact absurd hl (by decide)
    · rw [Bool.not_eq_true] at hl
      by_cases hs : sess.failsOn (StorageManager.getKey key) sv = true
      · constructor
        · constructor
          · intro h
            rw [StorageManager.set] at h
            simp only [hl, hs, if_true, Bool.false_eq_true, if_false] at h
          · rintro ⟨sv2, hsv2, -, hs2⟩
            rw [show sv2 = sv by injection hsv2 with h; rw [h]] at hs2
            rw [hs2] at hs
            exact absurd hs (by decide)
        · refine ⟨fun h => Option.noConfusion h, fun sv2 h2 hf => ?_, fun sv2 h2 _ _ => ?_⟩
          · rw [show sv2 = sv by injection h2 with h; rw [h]] at hf
            rw [hf] at hl
            exact absurd hl (by decide)
          · rw [show sv2 = sv by injection h2 with h; rw [h]]
            rw [StorageManager.set]
            simp only [hl, hs, Bool.false_eq_true, if_false, if_true]
      · rw [Bool.not_eq_true] at hs
        constructor
        · constructor
          · intro _
            exact ⟨sv, rfl, hl, hs⟩
          · intro _
            rw [StorageManager.set]
            simp only [hl, hs, Bool.false_eq_true, if_false]
        · refine ⟨fun h => Option.noConfusion h, fun sv2 h2 hf => ?_, fun sv2 h2 _ hf => ?_⟩
          · rw [show sv2 = sv by injection h2 with h; rw [h]] at hf
            rw [hf] at hl
            exact absurd hl (by decide)
          · rw [show sv2 = sv by injection h2 with h; rw [h]] at hf
            rw [hf] at hs
            exact absurd hs (by decide)

/-- C6 witness: the amended theorem applied to a concrete run where only the
secondary-tier write fails. -/
theorem storage_set_amended_c6_witness :
    StorageManager.set (some "1") cexLocTier cexSessTier "users" =
      (false,
        { cexLocTier with
            store := setItem cexLocTier.store (StorageManager.getKey "users") "1" },
        cexSessTier) :=
  (storage_set_amended_c6 (some "1") cexLocTier cexSessTier "users").2.2.2 "1" rfl rfl rfl

theorem sync_def (L S : Store) : StorageManager.sync L S =
    (StorageManager.syncPass2 (StorageManager.syncPass1 L S) L,
      StorageManager.syncPass1 L S) := rfl

/-- After one `sync`, a second run of either pass changes nothing. -/
theorem sync_fixpoint_aux {L S S1 L1 : Store} (hL : keysNodup L) (hS : keysNodup S)
    (hS1def : S1 = StorageManager.syncPass1 L S)
    (hL1def : L1 = StorageManager.syncPass2 S1 L) :
    StorageManager.syncPass1 L1 S1 = S1 ∧ StorageManager.syncPass2 S1 L1 = L1 := by
  have hS1 : keysNodup S1 := hS1def ▸ StorageManager.keysNodup_syncPass1 hL hS
  have hL1 : keysNodup L1 := hL1def ▸ StorageManager.keysNodup_syncPass2 hS1 hL
  have charS1 : ∀ k, getItem S1 k =
      match getItem L k with
      | some v =>
        if StorageManager.pass1Cond k && (v != "") then some v else getItem S k
      | none => getItem S k := by
    intro k
    rw [hS1def, StorageManager.syncPass1_eq L S hL]
    exact StorageManager.getItem_simpleCopy _ hL S k
  have charL1 : ∀ k, getItem L1 k =
      match getItem S1 k with
      | some v =>
        if StorageManager.pass2Cond k && (v != "") then some v else getItem L k
      | none => getItem L k := by
    intro k
    rw [hL1def, StorageManager.syncPass2_eq S1 L hS1]
    exact StorageManager.getItem_simpleCopy _ hS1 L k
  constructor
  · rw [StorageManager.syncPass1_eq L1 S1 hL1]
    apply StorageManager.simpleCopy_eq_self
    intro kv hkv hc hv
    have hlk : getItem L1 kv.1 = some kv.2 := lookupA_self_of_nodup hL1 kv hkv
    rw [charL1 kv.1] at hlk
    cases hS1k : getItem S1 kv.1 with
    | some v =>
      simp only [hS1k] at hlk
      by_cases hcond : (StorageManager.pass2Cond kv.1 && (v != "")) = true
      · rw [if_pos hcond] at hlk
        exact hlk
      · rw [if_neg hcond] at hlk
        have hch := charS1 kv.1
        simp only [hlk] at hch
        rw [← hS1k, hch, if_pos (by rw [hc, Bool.true_and]; exact bne_iff_ne.mpr hv)]
    | none =>
      simp only [hS1k] at hlk
      have hch := charS1 kv.1
      simp only [hlk] at hch
      rw [hS1k, if_pos (by rw [hc, Bool.true_and]; exact bne_iff_ne.mpr hv)] at hch
      exact hch
  · rw [StorageManager.syncPass2_eq S1 L1 hS1]
    apply StorageManager.simpleCopy_eq_self
    intro kv hkv hc hv
    have hlk : getItem S1 kv.1 = some kv.2 := lookupA_self_of_nodup hS1 kv hkv
    have hch := charL1 kv.1
    simp only [hlk] at hch
    rw [hch, if_pos (by rw [hc, Bool.true_and]; exact bne_iff_ne.mpr hv)]

/-- C8: `sync()` is idempotent: for any two tiers (with the keys of each
tier distinct, as they are in a browser storage area), running `sync`
on the result of `sync` returns both tiers unchanged. -/
theorem sync_idempotent_c8 (L S : Store) (hL : keysNodup L) (hS : keysNodup S) :
    StorageManager.sync (StorageManager.sync L S).1 (StorageManager.sync L S).2 =
      StorageManager.sync L S := by
  obtain ⟨h1, h2⟩ := sync_fixpoint_aux hL hS rfl rfl
  show StorageManager.sync
      (StorageManager.syncPass2 (StorageManager.syncPass1 L S) L)
      (StorageManager.syncPass1 L S) = StorageManager.sync L S
  rw [sync_def, sync_def, h1, h2]

/-- C8 witness: idempotence evaluated on concrete tiers holding persistent,
ephemeral and empty-keyed entries. -/
theorem sync_idempotent_c8_witness :
    keysNodup ([("pointmoney_users", "u"), ("tempFlag", "t")] : Store) ∧
    keysNodup ([("pointmoney_point-storage", "p"), ("", "e")] : Store) ∧
    StorageManager.sync
        (StorageManager.sync [("pointmoney_users", "u"), ("tempFlag", "t")]
          [("pointmoney_point-storage", "p"), ("", "e")]).1
        (StorageManager.sync [("pointmoney_users", "u"), ("tempFlag", "t")]
          [("pointmoney_point-storage", "p"), ("", "e")]).2 =
      StorageManager.sync [("pointmoney_users", "u"), ("tempFlag", "t")]
        [("pointmoney_point-storage", "p"), ("", "e")] :=
  ⟨by decide, by decide,
    sync_idempotent_c8 [("pointmoney_users", "u"), ("tempFlag", "t")]
      [("pointmoney_point-storage", "p"), ("", "e")] (by decide) (by decide)⟩

/-- C7 counterexample: the namespaced entry `pointmoney_users` with the
empty-string value, present only in the secondary tier, has Persistent
unprefixed key `users`, yet `sync()` does not copy it into the primary tier
(the `if (value)` truthiness check skips empty values), refuting the
claimed if-and-only-if. -/
theorem sync_pass2_c7_counterexample :
    StorageManager.getKey "users" = "pointmoney_users" ∧
    StorageManager.isPersistentKey "users" = true ∧
    getItem ([] : Store) "pointmoney_users" = none ∧
    getItem [("pointmoney_users", "")] "pointmoney_users" = some "" ∧
    getItem (StorageManager.sync [] [("pointmoney_users", "")]).1
      "pointmoney_users" = none := by
  decide

/-- C7 (amended): in the second pass of `sync()`, a namespaced entry
(key `pointmoney_` ++ rest) present only in the secondary tier and holding
a non-empty value is copied into the primary tier exactly when its
unprefixed key `rest` is in the persistent allowlist; in particular an
entry with an Ephemeral unprefixed key is never copied. -/
theorem sync_pass2_allowlist_amended (L S : Store) (hL : keysNodup L)
    (hS : keysNodup S) (rest v : String)
    (habs : getItem L (StorageManager.getKey rest) = none)
    (hpres : getItem S (StorageManager.getKey rest) = some v) (hv : v ≠ "") :
    getItem (StorageManager.sync L S).1 (StorageManager.getKey rest) =
      (if StorageManager.isPersistentKey rest then some v else none) := by
  have hS1 : keysNodup (StorageManager.syncPass1 L S) :=
    StorageManager.keysNodup_syncPass1 hL hS
  have hkey : (StorageManager.getKey rest != "") = true :=
    bne_iff_ne.mpr (getKey_ne_empty rest)
  have hS1v : getItem (StorageManager.syncPass1 L S)
      (StorageManager.getKey rest) = some v := by
    rw [StorageManager.syncPass1_eq L S hL,
      StorageManager.getItem_simpleCopy_of_none _ hL S habs]
    exact hpres
  show getItem
      (StorageManager.syncPass2 (StorageManager.syncPass1 L S) L)
      (StorageManager.getKey rest) = _
  rw [StorageManager.syncPass2_eq _ L hS1,
    StorageManager.getItem_simpleCopy_of_some _ hS1 L hS1v, habs]
  unfold StorageManager.pass2Cond
  rw [jsReplaceFirst_getKey, hkey, Bool.true_and,
    show (v != "") = true from bne_iff_ne.mpr hv, Bool.and_true]

/-- C7 witness: the amended theorem applied to a persistent key with a
non-empty value present only in the secondary tier. -/
theorem sync_pass2_allowlist_amended_witness :
    getItem (StorageManager.sync [] [("pointmoney_users", "x")]).1
        (StorageManager.getKey "users") =
      (if StorageManager.isPersistentKey "users" then some "x" else none) :=
  sync_pass2_allowlist_amended [] [("pointmoney_users", "x")] (by decide)
    (by decide) "users" "x" (by decide) (by decide) (by decide)

/-! ## The auth/points store (src/src/stores/authStore.ts)

A user record as stored in the `users` object.  Every field is an `Option`
because a JS object can lack any of them (notably the degenerate record
`login` builds by spreading `undefined` when the id is absent from the
directory).  `registerUser` strips `password` before building the stored
record, so the stored record type has no password field. -/

structure User where
  id : Option String
  loginId : Option String
  name : Option String
  points : Option Int
  totalEarned : Option Int
  status : Option String
  role : Option String
  joinedAt : Option String
  lastLogin : Option String
  avatarUrl : Option String
deriving DecidableEq

/-- The result of spreading `undefined` (or `{}`): every field absent. -/
def undefinedUser : User :=
  { id := none, loginId := none, name := none, points := none,
    totalEarned := none, status := none, role := none, joinedAt := none,
    lastLogin := none, avatarUrl := none }

/-- JS property access `obj[k]` coerces a non-string key to a string:
`obj[undefined]` reads the key `"undefined"`. -/
def jsPropKey : Option String → String
  | some s => s
  | none => "undefined"

/-- The zustand store state together with the externally observable calls
into `authManager` (`../utils/auth`, not part of the sources): `saved` is
the sequence of `authManager.saveUser` calls (the persisted account rows)
and `credentials` the pairs handed to `authManager.addCredential`. -/
structure AuthWorld where
  user : Option User
  users : List (String × User)
  isAuthenticated : Bool
  customIcon : Option String
  saved : List User
  credentials : List (String × String)
deriving DecidableEq

/-- `login(userData)`: reads `currentUsers[userData.id]` (spreading
`undefined` when absent, which yields an object holding only `lastLogin`),
stamps `lastLogin` with the current time, stores the result under
`userData.id`, makes it the active user, sets `isAuthenticated`, and
persists it via `authManager.saveUser`.  There is no not-found check. -/
def login (id now : String) (w : AuthWorld) : AuthWorld :=
  let updatedUser : User :=
    { (lookupA w.users id).getD undefinedUser with lastLogin := some now }
  { w with
      user := some updatedUser,
      users := setA w.users id updatedUser,
      isAuthenticated := true,
      saved := w.saved ++ [updatedUser] }

/-- `Partial<User>`-shaped argument of `updateProfile`: a field that is
`none` is absent from the update object. -/
structure ProfileUpdates where
  id : Option String := none
  loginId : Option String := none
  name : Option String := none
  points : Option Int := none
  totalEarned : Option Int := none
  status : Option String := none
  role : Option String := none
  joinedAt : Option String := none
  lastLogin : Option String := none
  avatarUrl : Option String := none
deriving DecidableEq

/-- A field of the spread `{ ...u, ...p }`: the update's value when the
field is present in the update object, the original value otherwise. -/
def overrideF {beta : Type} (pv uv : Option beta) : Option beta :=
  match pv with
  | some v => some v
  | none => uv

/-- `{ ...u, ...p }`: every field present in `p` overrides the one in `u`. -/
def applyUpdates (u : User) (p : ProfileUpdates) : User :=
  { id := overrideF p.id u.id,
    loginId := overrideF p.loginId u.loginId,
    name := overrideF p.name u.name,
    points := overrideF p.points u.points,
    totalEarned := overrideF p.totalEarned u.totalEarned,
    status := overrideF p.status u.status,
    role := overrideF p.role u.role,
    joinedAt := overrideF p.joinedAt u.joinedAt,
    lastLogin := overrideF p.lastLogin u.lastLogin,
    avatarUrl := overrideF p.avatarUrl u.avatarUrl }

/-- `updateProfile(updates)`: returns immediately when no user is signed
in; otherwise overlays `updates` on `users[user.id]` (spreading `undefined`
when the active id is absent), stores and persists the result. -/
def updateProfile (p : ProfileUpdates) (w : AuthWorld) : AuthWorld :=
  match w.user with
  | none => w
  | some u =>
    let updatedUser :=
      applyUpdates ((lookupA w.users (jsPropKey u.id)).getD undefinedUser) p
    { w with
        user := some updatedUser,
        users := setA w.users (jsPropKey u.id) updatedUser,
        saved := w.saved ++ [updatedUser] }

/-- `updateAvatar(avatarUrl)`: like `updateProfile` but only replaces the
avatar URL. -/
def updateAvatar (url : String) (w : AuthWorld) : AuthWorld :=
  match w.user with
  | none => w
  | some u =>
    let updatedUser : User :=
      { (lookupA w.users (jsPropKey u.id)).getD undefinedUser with
          avatarUrl := some url }
    { w with
        user := some updatedUser,
        users := setA w.users (jsPropKey u.id) updatedUser,
        saved := w.saved ++ [updatedUser] }

/-- `updatePoints(points)`: returns immediately when no user is signed in.
Otherwise it evaluates `get().users[user.id].totalEarned`, which throws a
`TypeError` (modelled as `none`) when the active id is absent from the
directory; with the current record present it stores the raw argument as
the new `points` value and adds the argument to `totalEarned`
(`undefined + n` is `NaN`, modelled by `Option.map`). -/
def updatePoints (pts : Int) (w : AuthWorld) : Option AuthWorld :=
  match w.user with
  | none => some w
  | some u =>
    match lookupA w.users (jsPropKey u.id) with
    | none => none
    | some cur =>
      let updatedUser : User :=
        { cur with
            points := some pts,
            totalEarned := cur.totalEarned.map (fun t => t + pts) }
      some { w with
          user := some updatedUser,
          users := setA w.users (jsPropKey u.id) updatedUser,
          saved := w.saved ++ [updatedUser] }

/-- `updateUserPoints(userId, points)`: returns when the id is absent.
Otherwise `points` becomes `Math.max(0, points)` and `totalEarned` grows by
`points - currentUser.points` exactly when `points > currentUser.points`
(the comparison and the subtraction use the raw argument; an `undefined`
current value makes the comparison false).  The active snapshot is
refreshed when it has the same id. -/
def updateUserPoints (userId : String) (pts : Int) (w : AuthWorld) : AuthWorld :=
  match lookupA w.users userId with
  | none => w
  | some cur =>
    let inc : Int :=
      match cur.points with
      | some q => if q < pts then pts - q else 0
      | none => 0
    let updatedUser : User :=
      { cur with
          points := some (max 0 pts),
          totalEarned := cur.totalEarned.map (fun t => t + inc) }
    { w with
        users := setA w.users userId updatedUser,
        user := match w.user with
          | none => none
          | some u => if u.id = some userId then some updatedUser else some u,
        saved := w.saved ++ [updatedUser] }

/-- The argument of `registerUser`: the user fields (no `id`) plus the
credential. -/
structure RegisterData where
  loginId : String
  name : Option String
  points : Option Int
  totalEarned : Option Int
  status : Option String
  role : Option String
  joinedAt : Option String
  lastLogin : Option String
  avatarUrl : Option String
  password : String
deriving DecidableEq

/-- The record `registerUser` builds: the spread of the password-stripped
input, with `id := loginId` and `points`, `status`, `joinedAt`,
`totalEarned`, `role` overridden by the literal fields that follow the
spread (so the input values of those five fields are dead). -/
def mkRegisteredUser (rd : RegisterData) (now : String) : User :=
  { id := some rd.loginId,
    loginId := some rd.loginId,
    name := rd.name,
    points := some 0,
    totalEarned := some 0,
    status := some "active",
    role := some "worker",
    joinedAt := some now,
    lastLogin := rd.lastLogin,
    avatarUrl := rd.avatarUrl }

/-- `registerUser(userData)`: destructures the password away, builds the
new account, hands `(loginId, password)` to `authManager.addCredential`,
persists the account, inserts it under `newUser.id`, and returns it.
There is no duplicate-id check. -/
def registerUser (rd : RegisterData) (now : String) (w : AuthWorld) :
    AuthWorld × User :=
  let newUser := mkRegisteredUser rd now
  ({ w with
      credentials := w.credentials ++ [(rd.loginId, rd.password)],
      saved := w.saved ++ [newUser],
      users := setA w.users rd.loginId newUser },
    newUser)

/-- Boolean form of the balance invariant: every directory entry carries a
defined, non-negative `points` value. -/
def okPoints (u : User) : Bool :=
  match u.points with
  | some q => decide (0 ≤ q)
  | none => false

def BalInvB (w : AuthWorld) : Bool := w.users.all (fun kv => okPoints kv.2)

/-- The updates object does not push a negative `points` value. -/
def updatesNonneg (p : ProfileUpdates) : Bool :=
  match p.points with
  | some v => decide (0 ≤ v)
  | none => true

/-! ## Claims C1-C5, C9, C10 -/

/-- The empty store state (fresh session, nothing registered). -/
def emptyWorld : AuthWorld :=
  { user := none, users := [], isAuthenticated := false, customIcon := none,
    saved := [], credentials := [] }

/-- C9: when no user is signed in, `updateProfile`, `updateAvatar` and
`updatePoints` return without raising (for `updatePoints`: `some`, no
`TypeError` path) and leave the whole store state — active user, directory,
`isAuthenticated`, `customIcon` — and the observable persistence
(`saved`, `credentials`) completely unchanged. -/
theorem no_active_user_noop_c9 (p : ProfileUpdates) (url : String) (n : Int)
    (w : AuthWorld) (h : w.user = none) :
    updateProfile p w = w ∧ updateAvatar url w = w ∧ updatePoints n w = some w := by
  refine ⟨?_, ?_, ?_⟩
  · simp only [updateProfile, h]
  · simp only [updateAvatar, h]
  · simp only [updatePoints, h]

/-- C9 witness: the no-op triple evaluated on the empty store state. -/
theorem no_active_user_noop_c9_witness :
    updateProfile {} emptyWorld = emptyWorld ∧
    updateAvatar "a" emptyWorld = emptyWorld ∧
    updatePoints 5 emptyWorld = some emptyWorld :=
  no_active_user_noop_c9 {} "a" 5 emptyWorld rfl

/-- Active account at balance 10 with lifetime earnings 100. -/
def c2User : User :=
  { undefinedUser with id := some "u1", points := some 10, totalEarned := some 100 }

def c2World : AuthWorld :=
  { user := some c2User, users := [("u1", c2User)], isAuthenticated := true,
    customIcon := none, saved := [], credentials := [] }

/-- C2 counterexample: with the active account at balance 10,
`updatePoints(-20)` stores balance -20 — the raw argument — rather than the
claimed `max(0, 10 + (-20)) = 0`. -/
theorem updatePoints_c2_counterexample :
    ((updatePoints (-20) c2World).bind
        (fun w => lookupA w.users "u1")).map User.points = some (some (-20)) ∧
    ((updatePoints (-20) c2World).bind
        (fun w => lookupA w.users "u1")).map User.points ≠ some (some 0) := by
  decide

/-- C2 (amended): when a user is signed in and present in the directory,
`updatePoints(p)` stores the raw argument `p` as the new balance (no
clamping and no addition of the current balance) and adds exactly `p` to
`totalEarned`, including for negative `p`; at balance 10,
`updatePoints(-20)` therefore yields balance -20 with `totalEarned`
decreased by 20. -/
theorem updatePoints_amended_c2 (w : AuthWorld) (u cur : User) (pts t : Int)
    (hu : w.user = some u) (hc : lookupA w.users (jsPropKey u.id) = some cur)
    (ht : cur.totalEarned = some t) :
    updatePoints pts w = some { w with
      user := some { cur with points := some pts, totalEarned := some (t + pts) },
      users := setA w.users (jsPropKey u.id)
        { cur with points := some pts, totalEarned := some (t + pts) },
      saved := w.saved ++
        [{ cur with points := some pts, totalEarned := some (t + pts) }] } := by
  simp only [updatePoints, hu, hc, ht, Option.map]

/-- C2 witness: the amended description evaluated at the concrete
balance-10 account with `p = -20`. -/
theorem updatePoints_amended_c2_witness :
    updatePoints (-20) c2World = some { c2World with
      user := some { c2User with points := some (-20), totalEarned := some (100 + -20) },
      users := setA c2World.users (jsPropKey c2User.id)
        { c2User with points := some (-20), totalEarned := some (100 + -20) },
      saved := c2World.saved ++
        [{ c2User with points := some (-20), totalEarned := some (100 + -20) }] } :=
  updatePoints_amended_c2 c2World c2User c2User (-20) 100 rfl (by decide) rfl

/-- C3: for an account present in the directory with a defined balance
`p ≥ 0` and defined lifetime earnings `t`, `updateUserPoints(id, amount)`
stores balance `clamped = max(0, amount)` and adds `clamped - p` to the
lifetime earnings exactly when `clamped > p`, leaving them unchanged
otherwise.  (The code compares and subtracts with the raw amount; under the
precondition `p ≥ 0` this coincides with the clamped comparison.) -/
theorem updateUserPoints_c3 (w : AuthWorld) (uid : String) (amt : Int)
    (cur : User) (p t : Int) (hlk : lookupA w.users uid = some cur)
    (hp : cur.points = some p) (hp0 : 0 ≤ p) (ht : cur.totalEarned = some t) :
    lookupA (updateUserPoints uid amt w).users uid =
      some { cur with
        points := some (max 0 amt),
        totalEarned := some (t + (if p < max 0 amt then max 0 amt - p else 0)) } := by
  have hinc : (if p < amt then amt - p else 0) =
      (if p < max 0 amt then max 0 amt - p else 0) := by
    by_cases h : p < amt
    · rw [max_eq_right (le_of_lt (lt_of_le_of_lt hp0 h))]
    · rw [if_neg h, if_neg (not_lt.mpr (max_le hp0 (not_lt.mp h)))]
  simp only [updateUserPoints, hlk, hp, ht, Option.map, hinc]
  exact lookupA_setA_self w.users uid _

/-- C3 witness: the `(40, 100)` to `(90, 150)` step of the specification
scenario. -/
theorem updateUserPoints_c3_witness :
    lookupA (updateUserPoints "u1" 90
        { emptyWorld with
            users := [("u1", { undefinedUser with
              id := some "u1", points := some 40, totalEarned := some 100 })] }).users
      "u1" =
      some { { undefinedUser with
          id := some "u1", points := some 40, totalEarned := some 100 } with
        points := some (max 0 90),
        totalEarned := some (100 + (if (40 : Int) < max 0 90 then max 0 90 - 40 else 0)) } :=
  updateUserPoints_c3 _ "u1" 90
    { undefinedUser with id := some "u1", points := some 40, totalEarned := some 100 }
    40 100 (by decide) rfl (by decide) rfl

/-- C5 counterexample: logging in with an id absent from the directory does
not fail with NotFound; it fabricates a degenerate account (only
`lastLogin` defined), inserts it into the directory, and sets the
active-user reference and `isAuthenticated`. -/
theorem login_c5_counterexample :
    lookupA emptyWorld.users "ghost" = none ∧
    (login "ghost" "T1" emptyWorld).users ≠ emptyWorld.users ∧
    (login "ghost" "T1" emptyWorld).user ≠ emptyWorld.user ∧
    (login "ghost" "T1" emptyWorld).isAuthenticated = true := by
  decide

/-- C5 (amended): `login(id)` never fails.  It takes the directory row for
`id` (or the empty object when absent), stamps `lastLogin` with the current
time, stores the result under `id` (leaving every other key unchanged),
persists it, makes it the active user and sets `isAuthenticated`; the
credential store and `customIcon` are untouched.  For a present id this is
exactly the claimed success path; for an absent id a degenerate account is
created instead of a NotFound failure. -/
theorem login_amended_c5 (id now k : String) (hk : k ≠ id) (w : AuthWorld) :
    (login id now w).isAuthenticated = true ∧
    (login id now w).user =
      some { (lookupA w.users id).getD undefinedUser with lastLogin := some now } ∧
    lookupA (login id now w).users id =
      some { (lookupA w.users id).getD undefinedUser with lastLogin := some now } ∧
    lookupA (login id now w).users k = lookupA w.users k ∧
    (login id now w).saved = w.saved ++
      [{ (lookupA w.users id).getD undefinedUser with lastLogin := some now }] ∧
    (login id now w).credentials = w.credentials ∧
    (login id now w).customIcon = w.customIcon := by
  refine ⟨rfl, rfl, ?_, ?_, rfl, rfl, rfl⟩
  · exact lookupA_setA_self w.users id _
  · exact lookupA_setA_ne w.users id _ hk

/-- C5 witness: the amended login behaviour evaluated on a directory
holding only the account `u1`. -/
theorem login_amended_c5_witness :
    (login "u1" "T2" c2World).isAuthenticated = true ∧
    (login "u1" "T2" c2World).user =
      some { (lookupA c2World.users "u1").getD undefinedUser with lastLogin := some "T2" } ∧
    lookupA (login "u1" "T2" c2World).users "u1" =
      some { (lookupA c2World.users "u1").getD undefinedUser with lastLogin := some "T2" } ∧
    lookupA (login "u1" "T2" c2World).users "zz" = lookupA c2World.users "zz" ∧
    (login "u1" "T2" c2World).saved = c2World.saved ++
      [{ (lookupA c2World.users "u1").getD undefinedUser with lastLogin := some "T2" }] ∧
    (login "u1" "T2" c2World).credentials = c2World.credentials ∧
    (login "u1" "T2" c2World).customIcon = c2World.customIcon :=
  login_amended_c5 "u1" "T2" "zz" (by decide) c2World

/-- Directory already holding the account `u1` with a nonzero ledger. -/
def c4User : User :=
  { undefinedUser with id := some "u1", points := some 5, totalEarned := some 7 }

def c4World : AuthWorld :=
  { user := none, users := [("u1", c4User)], isAuthenticated := false,
    customIcon := none, saved := [], credentials := [] }

def c4Data : RegisterData :=
  { loginId := "u1", name := none, points := none, totalEarned := none,
    status := none, role := none, joinedAt := none, lastLogin := none,
    avatarUrl := none, password := "pw" }

/-- C4 counterexample: registering an id that already exists in the
directory does not fail with DuplicateId and does mutate state: the
directory row is overwritten and a credential is appended. -/
theorem registerUser_c4_counterexample :
    lookupA c4World.users "u1" = some c4User ∧
    c4Data.loginId = "u1" ∧
    (registerUser c4Data "T3" c4World).1.users ≠ c4World.users ∧
    (registerUser c4Data "T3" c4World).1.credentials ≠ c4World.credentials := by
  decide

/-- C4 (amended): `registerUser` performs no duplicate-id check.  Even when
the id already exists in the directory, it unconditionally replaces that
row with a fresh account (balance 0, lifetime earnings 0), appends the
credential to the credential store, and persists the fresh row. -/
theorem registerUser_amended_c4 (w : AuthWorld) (rd : RegisterData)
    (now : String) (old : User) (h : lookupA w.users rd.loginId = some old) :
    lookupA (registerUser rd now w).1.users rd.loginId =
      some (mkRegisteredUser rd now) ∧
    (mkRegisteredUser rd now).points = some 0 ∧
    (mkRegisteredUser rd now).totalEarned = some 0 ∧
    (registerUser rd now w).1.credentials =
      w.credentials ++ [(rd.loginId, rd.password)] ∧
    (registerUser rd now w).1.saved = w.saved ++ [mkRegisteredUser rd now] ∧
    (registerUser rd now w).2 = mkRegisteredUser rd now := by
  refine ⟨?_, rfl, rfl, rfl, rfl, rfl⟩
  exact lookupA_setA_self w.users rd.loginId _

/-- C4 witness: the amended overwrite behaviour evaluated on the occupied
directory. -/
theorem registerUser_amended_c4_witness :
    lookupA (registerUser c4Data "T3" c4World).1.users c4Data.loginId =
      some (mkRegisteredUser c4Data "T3") ∧
    (mkRegisteredUser c4Data "T3").points = some 0 ∧
    (mkRegisteredUser c4Data "T3").totalEarned = some 0 ∧
    (registerUser c4Data "T3" c4World).1.credentials =
      c4World.credentials ++ [(c4Data.loginId, c4Data.password)] ∧
    (registerUser c4Data "T3" c4World).1.saved =
      c4World.saved ++ [mkRegisteredUser c4Data "T3"] ∧
    (registerUser c4Data "T3" c4World).2 = mkRegisteredUser c4Data "T3" :=
  registerUser_amended_c4 c4World c4Data "T3" c4User (by decide)

/-- C10: the record `registerUser` stores and persists carries no
credential: the stored `User` type has no password field (the destructuring
strips it), and — as a noninterference statement — the inserted directory
row, the persisted rows and the returned account are identical for any two
inputs differing only in the password; the password reaches only the
credential store, paired with the login id. -/
theorem registerUser_password_isolation_c10 (rd : RegisterData) (pw : String)
    (now : String) (w : AuthWorld) :
    (registerUser { rd with password := pw } now w).2 = (registerUser rd now w).2 ∧
    (registerUser { rd with password := pw } now w).1.users =
      (registerUser rd now w).1.users ∧
    (registerUser { rd with password := pw } now w).1.saved =
      (registerUser rd now w).1.saved ∧
    (registerUser rd now w).1.credentials =
      w.credentials ++ [(rd.loginId, rd.password)] :=
  ⟨rfl, rfl, rfl, rfl⟩

theorem balInv_all {w : AuthWorld} (h : BalInvB w = true) :
    ∀ kv ∈ w.users, okPoints kv.2 = true := by
  rw [BalInvB, List.all_eq_true] at h
  exact fun kv hkv => h kv hkv

theorem all_okPoints_setA {l : List (String × User)}
    (hl : ∀ kv ∈ l, okPoints kv.2 = true) {k : String} {v : User}
    (hv : okPoints v = true) :
    (setA l k v).all (fun kv => okPoints kv.2) = true := by
  rw [List.all_eq_true]
  intro kv hkv
  rcases mem_setA hkv with h | h
  · exact hl kv h
  · rw [h]
    exact hv

theorem okPoints_applyUpdates {cur : User} {p : ProfileUpdates}
    (hcur : okPoints cur = true) (hp : updatesNonneg p = true) :
    okPoints (applyUpdates cur p) = true := by
  cases hpp : p.points with
  | some v =>
    rw [updatesNonneg, hpp] at hp
    show okPoints { applyUpdates cur p with points := overrideF p.points cur.points } = true
    rw [hpp]
    exact hp
  | none =>
    show okPoints { applyUpdates cur p with points := overrideF p.points cur.points } = true
    rw [hpp]
    exact hcur

/-- Account with every balance non-negative, used to refute C1. -/
def c1User : User :=
  { undefinedUser with id := some "u1", points := some 3, totalEarned := some 3 }

def c1World : AuthWorld :=
  { user := some c1User, users := [("u1", c1User)], isAuthenticated := true,
    customIcon := none, saved := [], credentials := [] }

def c1Data : RegisterData :=
  { loginId := "u2", name := none, points := none, totalEarned := none,
    status := none, role := none, joinedAt := none, lastLogin := none,
    avatarUrl := none, password := "pw2" }

/-- C1 counterexample: starting from a directory in which every balance is
non-negative (and the active user present), `updatePoints(-5)` completes
and leaves a negative balance in the directory. -/
theorem balance_nonneg_c1_counterexample :
    BalInvB c1World = true ∧
    (match updatePoints (-5) c1World with
      | some w2 => BalInvB w2
      | none => true) = false := by
  decide

/-- C1 (amended): the non-negative-balance invariant is preserved by
`registerUser` and `updateUserPoints` unconditionally, by `login` when the
id is present in the directory, and by `updateProfile` (when the update
object does not itself carry a negative points value) and `updateAvatar`
when the active user's id is present in the directory.  `updatePoints` is
excluded: it stores its raw integer argument as the balance and can make it
negative (see the counterexample); `login` on an absent id and
`updateProfile`/`updateAvatar` with the active id absent create degenerate
rows with an undefined balance. -/
theorem balance_nonneg_amended_c1 (w : AuthWorld) (hw : BalInvB w = true)
    (id now url uid : String) (amt : Int) (p : ProfileUpdates)
    (rd : RegisterData)
    (hlogin : (lookupA w.users id).isSome = true)
    (hactive : ∀ u, w.user = some u →
      (lookupA w.users (jsPropKey u.id)).isSome = true)
    (hup : updatesNonneg p = true) :
    BalInvB (login id now w) = true ∧
    BalInvB (updateProfile p w) = true ∧
    BalInvB (updateAvatar url w) = true ∧
    BalInvB (updateUserPoints uid amt w) = true ∧
    BalInvB (registerUser rd now w).1 = true := by
  refine ⟨?_, ?_, ?_, ?_, ?_⟩
  · obtain ⟨u, hu⟩ := Option.isSome_iff_exists.mp hlogin
    simp only [BalInvB, login]
    apply all_okPoints_setA (balInv_all hw)
    rw [hu]
    exact balInv_all hw (id, u) (lookupA_mem hu)
  · cases hwu : w.user with
    | none =>
      simp only [updateProfile, hwu]
      exact hw
    | some u =>
      obtain ⟨cur, hcur⟩ := Option.isSome_iff_exists.mp (hactive u hwu)
      simp only [BalInvB, updateProfile, hwu]
      apply all_okPoints_setA (balInv_all hw)
      rw [hcur]
      exact okPoints_applyUpdates
        (balInv_all hw (jsPropKey u.id, cur) (lookupA_mem hcur)) hup
  · cases hwu : w.user with
    | none =>
      simp only [updateAvatar, hwu]
      exact hw
    | some u =>
      obtain ⟨cur, hcur⟩ := Option.isSome_iff_exists.mp (hactive u hwu)
      simp only [BalInvB, updateAvatar, hwu]
      apply all_okPoints_setA (balInv_all hw)
      rw [hcur]
      exact balInv_all hw (jsPropKey u.id, cur) (lookupA_mem hcur)
  · cases hlk : lookupA w.users uid with
    | none =>
      simp only [updateUserPoints, hlk]
      exact hw
    | some cur =>
      simp only [BalInvB, updateUserPoints, hlk]
      apply all_okPoints_setA (balInv_all hw)
      show decide (0 ≤ max 0 amt) = true
      exact decide_eq_true (le_max_left 0 amt)
  · simp only [BalInvB, registerUser]
    apply all_okPoints_setA (balInv_all hw)
    rfl

/-- C1 witness: the amended preservation statement evaluated on a concrete
one-account directory with a signed-in user, including a clamping
`updateUserPoints` call with a negative amount. -/
theorem balance_nonneg_amended_c1_witness :
    BalInvB (login "u1" "T" c1World) = true ∧
    BalInvB (updateProfile {} c1World) = true ∧
    BalInvB (updateAvatar "a" c1World) = true ∧
    BalInvB (updateUserPoints "u1" (-7) c1World) = true ∧
    BalInvB (registerUser c1Data "T" c1World).1 = true :=
  balance_nonneg_amended_c1 c1World (by decide) "u1" "T" "a" "u1" (-7) {} c1Data
    (by decide)
    (by
      intro u hu
      have h : some c1User = some u := hu
      injection h with h2
      rw [← h2]
      decide)
    rfl
